import Mathlib

/-!
# Verification of the voice-transcriber pipeline (src/app.ts)

A shallow embedding of the audio ingestion and transcription pipeline of
`src/app.ts`.  External effects (the HTTP download, `fs` calls, the ffmpeg
subprocess, the OpenAI transcription service, and the removal syscalls of
the cleanup phase) are modelled by an `Oracle` that fixes the outcome of
each effect; the pipeline itself is a pure function of the file descriptor
and the oracle, returning the propagated outcome, the final on-disk state
of the run's temporary artifacts, and a trace of the observable calls.

JavaScript numbers: `stats.size / (1024 * 1024)` is an IEEE-754 double
division, but the divisor is a power of two, so for every integer size
below 2^53 (every value `fs.stat` can report exactly) the quotient is
exact; the comparison is therefore modelled exactly over `ℚ`.

JavaScript strings: `String.prototype.startsWith` and the default
comparator of `Array.prototype.sort` (lexicographic by UTF-16 code unit)
are modelled on the character sequence of the Lean string; code-unit and
code-point order agree on the basic multilingual plane, which covers every
filename this pipeline sorts (`segment_%03d.mp3`).
-/

deriving instance DecidableEq for Except

namespace VoiceTranscriber

/-- The fields of the Slack file object that `app.ts` reads
(`file.id`, `file.name`, `file.url_private`, `file.mimetype`,
`file.filetype`). -/
structure FileDesc where
  id : String
  name : String
  url_private : String
  mimetype : String
  filetype : String
deriving Repr, DecidableEq

/-- Outcomes of the external effects of a single `processAudioFile` run.
`fetchOk` is the download (`downloadFile`), `partialFile` says whether a
partial temp file was left behind by a failed download, `size` is what
`fsp.stat` reports, `probeOk`/`ffmpegOk`/`readdirOk` are the three failure
points of `splitAudioFile`, `dirListing` is what `fsp.readdir(outputDir)`
returns (in arbitrary order), `transcribe` is the OpenAI service keyed by
file path, and `unlinkOk`/`rmOk` are the two removal syscalls of
`cleanupFiles`. -/
structure Oracle where
  fetchOk : Bool
  fetchErrMsg : String
  partialFile : Bool
  size : Nat
  probeOk : Bool
  probeErrMsg : String
  ffmpegOk : Bool
  ffmpegErrMsg : String
  readdirOk : Bool
  readdirErrMsg : String
  dirListing : List String
  transcribe : String → Except String String
  unlinkOk : Bool
  rmOk : Bool

/-- On-disk state of the run's temporary artifacts: does the temp file
`/tmp/<id>.<filetype>` exist, does the temp directory
`/tmp/<id>_segments` exist. -/
structure FS where
  tempFile : Bool
  tempDir : Bool
deriving Repr, DecidableEq

/-- Trace of observable calls made by the body of a run (everything inside
the `try` block of `processAudioFile`). -/
structure Trace where
  splitCalls : Nat
  transcribeCalls : List String
  dirCreated : Bool
  posts : List (String × String)
deriving Repr, DecidableEq

/-- JS `String.prototype.startsWith`, on the character sequence. -/
def jsStartsWith (s pre : String) : Bool :=
  pre.data.isPrefixOf s.data

/-- The default comparator order of JS `Array.prototype.sort` on strings:
lexicographic, modelled on the character sequence (see header note). -/
def jsLe (a b : String) : Prop :=
  a.data ≤ b.data

instance : DecidableRel jsLe :=
  fun a b => inferInstanceAs (Decidable (a.data ≤ b.data))

instance : IsTotal String jsLe :=
  ⟨fun a b => le_total a.data b.data⟩

instance : IsTrans String jsLe :=
  ⟨fun _ _ _ h₁ h₂ => le_trans h₁ h₂⟩

instance : IsAntisymm String jsLe := by
  refine ⟨fun a b h₁ h₂ => ?_⟩
  cases a; cases b
  exact congrArg String.mk (le_antisymm h₁ h₂)

/-- `/tmp/${file.id}.${file.filetype}` -/
def tempFilePath (file : FileDesc) : String :=
  "/tmp/" ++ file.id ++ "." ++ file.filetype

/-- `/tmp/${file.id}_segments` -/
def segmentsDir (file : FileDesc) : String :=
  "/tmp/" ++ file.id ++ "_segments"

/-- `stats.size / (1024 * 1024)` — exact over `ℚ` (see header note). -/
def fileSizeInMegabytes (size : Nat) : ℚ :=
  (size : ℚ) / (1024 * 1024)

/-- The branch condition `fileSizeInMegabytes > 25` of `processAudioFile`. -/
def exceedsLimit (size : Nat) : Bool :=
  decide (fileSizeInMegabytes size > 25)

/-- The filter applied to the directory listing in `splitAudioFile`:
`files.filter(file => file.startsWith('segment_'))`. -/
def segmentFilter (files : List String) : List String :=
  files.filter (fun f => jsStartsWith f "segment_")

/-- `splitAudioFile`: ffprobe first (`FFprobe failed:`), then the ffmpeg
run (`FFmpeg failed:`), then on the `end` event a `readdir` of the output
directory (`Failed to read output directory:`); on success the listing is
filtered to `segment_` files and sorted (`.sort()`, lexicographic). -/
def splitAudioFile (o : Oracle) : Except String (List String) :=
  if !o.probeOk then .error ("FFprobe failed: " ++ o.probeErrMsg)
  else if !o.ffmpegOk then .error ("FFmpeg failed: " ++ o.ffmpegErrMsg)
  else if !o.readdirOk then
    .error ("Failed to read output directory: " ++ o.readdirErrMsg)
  else .ok (List.insertionSort jsLe (segmentFilter o.dirListing))

/-- The segment loop of `processAudioFile`: for each segment in order,
`transcriptionText += await transcribeAudio(openai, path.join(outputDir,
segment)) + ' '`; the first service error aborts the loop and propagates.
Returns the transcription call paths in order together with the outcome. -/
def transcribeLoop (tr : String → Except String String) (dir acc : String) :
    List String → List String × Except String String
  | [] => ([], .ok acc)
  | seg :: rest =>
    let p := dir ++ "/" ++ seg
    match tr p with
    | .error e => ([p], .error e)
    | .ok t =>
      let r := transcribeLoop tr dir (acc ++ t ++ " ") rest
      (p :: r.1, r.2)

/-- `cleanupFiles`: one `try` block that unlinks the temp file when it
exists, then removes the output directory when one was assigned and
exists; any throw is caught and logged, so a failed unlink also skips the
directory removal, and the caller never sees an error. -/
def cleanupFiles (o : Oracle) (hasDir : Bool) (fs : FS) : FS :=
  if fs.tempFile then
    if o.unlinkOk then
      let fs1 : FS := { fs with tempFile := false }
      if hasDir && fs1.tempDir then
        if o.rmOk then { fs1 with tempDir := false } else fs1
      else fs1
    else fs
  else
    if hasDir && fs.tempDir then
      if o.rmOk then { fs with tempDir := false } else fs
    else fs

/-- `文字起こし結果: (${file.name}):\n${transcriptionText}` -/
def resultMessage (name text : String) : String :=
  "文字起こし結果: (" ++ name ++ "):\n" ++ text

/-- Result of the `try` body of `processAudioFile`, before the `finally`
clause runs: the propagated outcome, whether `outputDir` was assigned, the
on-disk state, and the call trace. -/
structure BodyResult where
  outcome : Except String Unit
  hasDir : Bool
  fs : FS
  trace : Trace
deriving Repr, DecidableEq

/-- The `try` block of `processAudioFile`: download, stat, branch on the
25 MB threshold, split + segment loop or direct transcription, then post
the result message. -/
def runBody (file : FileDesc) (channelId : String) (o : Oracle) : BodyResult :=
  if !o.fetchOk then
    { outcome := .error o.fetchErrMsg, hasDir := false
      fs := { tempFile := o.partialFile, tempDir := false }
      trace := { splitCalls := 0, transcribeCalls := [], dirCreated := false,
                 posts := [] } }
  else if exceedsLimit o.size then
    match splitAudioFile o with
    | .error e =>
      { outcome := .error e, hasDir := true
        fs := { tempFile := true, tempDir := true }
        trace := { splitCalls := 1, transcribeCalls := [], dirCreated := true,
                   posts := [] } }
    | .ok segments =>
      match transcribeLoop o.transcribe (segmentsDir file) "" segments with
      | (calls, .error e) =>
        { outcome := .error e, hasDir := true
          fs := { tempFile := true, tempDir := true }
          trace := { splitCalls := 1, transcribeCalls := calls,
                     dirCreated := true, posts := [] } }
      | (calls, .ok text) =>
        { outcome := .ok (), hasDir := true
          fs := { tempFile := true, tempDir := true }
          trace := { splitCalls := 1, transcribeCalls := calls,
                     dirCreated := true,
                     posts := [(channelId, resultMessage file.name text)] } }
  else
    match o.transcribe (tempFilePath file) with
    | .error e =>
      { outcome := .error e, hasDir := false
        fs := { tempFile := true, tempDir := false }
        trace := { splitCalls := 0, transcribeCalls := [tempFilePath file],
                   dirCreated := false, posts := [] } }
    | .ok text =>
      { outcome := .ok (), hasDir := false
        fs := { tempFile := true, tempDir := false }
        trace := { splitCalls := 0, transcribeCalls := [tempFilePath file],
                   dirCreated := false,
                   posts := [(channelId, resultMessage file.name text)] } }

/-- Full result of one `processAudioFile` run: the outcome propagated to
the caller, the on-disk state after the `finally` clause, the body trace,
and the number of `cleanupFiles` invocations. -/
structure RunResult where
  outcome : Except String Unit
  fs : FS
  trace : Trace
  cleanupCalls : Nat
deriving Repr, DecidableEq

/-- `processAudioFile`: the `try` body followed unconditionally by the
single `finally { await cleanupFiles(tempFilePath, outputDir) }`;
`cleanupFiles` never throws, so the body's outcome is propagated
unchanged. -/
def processAudioFile (file : FileDesc) (channelId : String) (o : Oracle) :
    RunResult :=
  let b := runBody file channelId o
  { outcome := b.outcome
    fs := cleanupFiles o b.hasDir b.fs
    trace := b.trace
    cleanupCalls := 1 }

/-! ## The `app_mention` handler (`main`) -/

/-- A message sent back to Slack: either a `say` in the triggering thread
or a `client.chat.postMessage` to a channel. -/
inductive Msg where
  | says (text : String)
  | post (channel text : String)
deriving Repr, DecidableEq

/-- `音声ファイルを受け取りました。文字起こしを開始します。` -/
def startNotice : String := "音声ファイルを受け取りました。文字起こしを開始します。"

/-- `添付されたファイルに音声ファイルが含まれていません。` -/
def noAudioNotice : String := "添付されたファイルに音声ファイルが含まれていません。"

/-- `こんにちは！音声ファイルを添付してメンションしていただければ、文字起こしを行います。` -/
def greetingNotice : String :=
  "こんにちは！音声ファイルを添付してメンションしていただければ、文字起こしを行います。"

/-- `申し訳ありません。文字起こし処理中にエラーが発生しました。` -/
def failureNotice : String := "申し訳ありません。文字起こし処理中にエラーが発生しました。"

/-- `file.mimetype.startsWith('audio/')` -/
def isAudioFile (f : FileDesc) : Bool :=
  jsStartsWith f.mimetype "audio/"

/-- The `postMessage` calls of one run, as outbound messages. -/
def runPosts (r : RunResult) : List Msg :=
  r.trace.posts.map fun pt => Msg.post pt.1 pt.2

/-- The `for (const file of audioFiles)` loop of the handler: each file is
processed in order with its own oracle (`env i` for the i-th file); the
first run whose outcome is an error aborts the loop and the error escapes
to the handler's `catch`.  Returns the outbound messages, the runs
performed, and whether an error escaped. -/
def processLoop (ch : String) (env : Nat → Oracle) :
    List FileDesc → Nat → List Msg × List RunResult × Bool
  | [], _ => ([], [], false)
  | f :: rest, i =>
    let r := processAudioFile f ch (env i)
    match r.outcome with
    | .error _ => (runPosts r, [r], true)
    | .ok _ =>
      let k := processLoop ch env rest (i + 1)
      (runPosts r ++ k.1, r :: k.2.1, k.2.2)

/-- The `app_mention` handler of `main`: greet when no files are attached,
inform when none are audio, otherwise announce the start, process the
audio files sequentially, and on an escaped error post the single generic
failure notice from the `catch` block. -/
def handleMention (files : List FileDesc) (ch : String) (env : Nat → Oracle) :
    List Msg × List RunResult :=
  if files.length > 0 then
    let audioFiles := files.filter (fun f => isAudioFile f)
    if audioFiles.length > 0 then
      let k := processLoop ch env audioFiles 0
      (Msg.says startNotice :: k.1 ++
        (if k.2.2 then [Msg.says failureNotice] else []), k.2.1)
    else ([Msg.says noAudioNotice], [])
  else ([Msg.says greetingNotice], [])

/-- The runs performed when every file in the list succeeds, i-th file
against oracle `env (i₀ + i)`. -/
def runsFrom (ch : String) (env : Nat → Oracle) :
    List FileDesc → Nat → List RunResult
  | [], _ => []
  | f :: rest, i => processAudioFile f ch (env i) :: runsFrom ch env rest (i + 1)

/-- All `postMessage` calls of a list of runs, in order. -/
def postsOf (runs : List RunResult) : List Msg :=
  runs.foldr (fun r acc => runPosts r ++ acc) []

/-- The final transcript of the segment branch: the text of each segment
in order, each followed by the single space the loop appends. -/
def joinedTranscript (f : String → String) (dir : String)
    (segs : List String) : String :=
  segs.foldr (fun s t => f (dir ++ "/" ++ s) ++ " " ++ t) ""

/-! ## Concrete fixtures -/

/-- A sample audio attachment. -/
def exFile : FileDesc :=
  { id := "F123", name := "rec.mp3", url_private := "https://files.example/rec",
    mimetype := "audio/mpeg", filetype := "mp3" }

/-- A fully succeeding environment for a small (at the 25 MB boundary)
asset. -/
def exOracleDirect : Oracle :=
  { fetchOk := true, fetchErrMsg := "", partialFile := false
    size := 26214400
    probeOk := true, probeErrMsg := "", ffmpegOk := true, ffmpegErrMsg := ""
    readdirOk := true, readdirErrMsg := "", dirListing := []
    transcribe := fun p => if p = "/tmp/F123.mp3" then .ok "hello" else .error "enoent"
    unlinkOk := true, rmOk := true }

/-- A 40 MB asset split into three segments that the external tool lists
out of order and that transcribe to `"a "`, `"b "`, `"c "`. -/
def exOracleSplitSpaced : Oracle :=
  { exOracleDirect with
    size := 41943040
    dirListing := ["segment_002.mp3", "segment_000.mp3", "segment_001.mp3"]
    transcribe := fun p =>
      if p = "/tmp/F123_segments/segment_000.mp3" then .ok "a "
      else if p = "/tmp/F123_segments/segment_001.mp3" then .ok "b "
      else if p = "/tmp/F123_segments/segment_002.mp3" then .ok "c "
      else .error "enoent" }

/-- The transcription service of `exOracleSplitBare`, as a total text
assignment. -/
def exTexts (p : String) : String :=
  if p = "/tmp/F123_segments/segment_000.mp3" then "a"
  else if p = "/tmp/F123_segments/segment_001.mp3" then "b"
  else if p = "/tmp/F123_segments/segment_002.mp3" then "c"
  else ""

/-- A 40 MB asset split into three segments listed out of order,
transcribing to `"a"`, `"b"`, `"c"`. -/
def exOracleSplitBare : Oracle :=
  { exOracleSplitSpaced with
    transcribe := fun p => .ok (exTexts p) }

/-- A 40 MB asset whose split produces zero segments. -/
def exOracleZeroSegs : Oracle :=
  { exOracleSplitSpaced with dirListing := [] }

/-- A split run whose only segment fails transcription with the raw
service error `"boom"`. -/
def exOracleFailFirst : Oracle :=
  { exOracleSplitSpaced with
    dirListing := ["segment_000.mp3"]
    transcribe := fun _ => .error "boom" }

/-- A split run of two segments whose second fails transcription with the
raw service error `"boom"`. -/
def exOracleFailSecond : Oracle :=
  { exOracleSplitSpaced with
    dirListing := ["segment_000.mp3", "segment_001.mp3"]
    transcribe := fun p =>
      if p = "/tmp/F123_segments/segment_000.mp3" then .ok "a" else .error "boom" }

/-- A failed download that leaves a partial temp file behind. -/
def exOracleFetchFail : Oracle :=
  { exOracleDirect with
    fetchOk := false
    fetchErrMsg := "ECONNRESET"
    partialFile := true }

/-- A second sample audio attachment. -/
def exFileB : FileDesc :=
  { id := "F456", name := "memo.m4a", url_private := "https://files.example/memo",
    mimetype := "audio/mp4", filetype := "m4a" }

/-- A third sample audio attachment. -/
def exFileC : FileDesc :=
  { id := "F789", name := "talk.wav", url_private := "https://files.example/talk",
    mimetype := "audio/wav", filetype := "wav" }

/-- A non-audio attachment, filtered out by the handler. -/
def exFileDoc : FileDesc :=
  { id := "F000", name := "notes.pdf", url_private := "https://files.example/notes",
    mimetype := "application/pdf", filetype := "pdf" }

/-- A direct-transcription environment for `exFileB`. -/
def exOracleDirectB : Oracle :=
  { exOracleDirect with
    transcribe := fun p => if p = "/tmp/F456.m4a" then .ok "memo text" else .error "enoent" }

/-- A direct-transcription environment whose service call fails for
`exFileC`. -/
def exOracleTransFailC : Oracle :=
  { exOracleDirect with transcribe := fun _ => .error "rate limited" }

/-- Per-position environments for the three-file handler scenario: the
first file succeeds, the second fails transcription. -/
def exEnv : Nat → Oracle
  | 0 => exOracleDirect
  | 1 => exOracleTransFailC
  | _ => exOracleDirectB

/-! ## Helper lemmas -/

/-- The floating-point branch condition is the exact integer comparison
against 25 MB = 26,214,400 bytes. -/
theorem size_threshold_iff (size : Nat) :
    fileSizeInMegabytes size > 25 ↔ 26214400 < size := by
  unfold fileSizeInMegabytes
  rw [gt_iff_lt, lt_div_iff₀ (by norm_num : (0:ℚ) < 1024 * 1024)]
  constructor <;> intro h <;> exact_mod_cast h

theorem exceedsLimit_eq (size : Nat) :
    exceedsLimit size = decide (26214400 < size) :=
  decide_eq_decide.mpr (size_threshold_iff size)

theorem exceedsLimit_eq_false {size : Nat} (h : size ≤ 26214400) :
    exceedsLimit size = false := by
  simp [exceedsLimit_eq, Nat.not_lt.mpr h]

theorem exceedsLimit_eq_true {size : Nat} (h : 26214400 < size) :
    exceedsLimit size = true := by
  simp [exceedsLimit_eq, h]

/-- `cleanupFiles` removes both artifacts when both removal syscalls
succeed, provided the directory is only present when it was assigned. -/
theorem cleanupFiles_clean (o : Oracle) (hasDir : Bool) (fs : FS)
    (hu : o.unlinkOk = true) (hr : o.rmOk = true)
    (hd : fs.tempDir = true → hasDir = true) :
    cleanupFiles o hasDir fs = ⟨false, false⟩ := by
  obtain ⟨tf, td⟩ := fs
  cases tf <;> cases td <;> cases hasDir <;>
    simp_all [cleanupFiles]

/-- In every branch of the body, the temp directory exists only if
`outputDir` was assigned. -/
theorem runBody_dir_inv (file : FileDesc) (ch : String) (o : Oracle) :
    (runBody file ch o).fs.tempDir = true → (runBody file ch o).hasDir = true := by
  unfold runBody
  split
  · simp
  · split
    · split
      · simp
      · split <;> simp
    · split <;> simp

/-- The body never reads the cleanup-syscall outcomes. -/
theorem runBody_cleanup_indep (file : FileDesc) (ch : String) (o : Oracle)
    (u r : Bool) :
    runBody file ch { o with unlinkOk := u, rmOk := r } = runBody file ch o := by
  cases o
  rfl

/-- Successful segment loop: one call per segment, in order, and the
accumulated text is the concatenation of `text ++ " "` per segment. -/
theorem transcribeLoop_ok (tr : String → Except String String)
    (f : String → String) (dir : String) (segs : List String)
    (h : ∀ s ∈ segs, tr (dir ++ "/" ++ s) = .ok (f (dir ++ "/" ++ s))) :
    ∀ acc, transcribeLoop tr dir acc segs =
      (segs.map (fun s => dir ++ "/" ++ s),
       .ok (acc ++ joinedTranscript f dir segs)) := by
  induction segs with
  | nil => intro acc; simp [transcribeLoop, joinedTranscript]
  | cons s rest ih =>
    intro acc
    have hs := h s (by simp)
    have ih' := ih (fun x hx => h x (by simp [hx]))
    simp only [transcribeLoop, hs, ih', List.map_cons, joinedTranscript,
      List.foldr_cons]
    refine Prod.ext rfl ?_
    show Except.ok _ = Except.ok _
    simp [String.append_assoc]

/-- Failing segment loop: the first failing segment aborts the loop, the
calls are exactly the prefix up to and including it, and the raw service
error is returned unchanged. -/
theorem transcribeLoop_err (tr : String → Except String String)
    (f : String → String) (dir : String) (pre : List String) (seg : String)
    (rest : List String) (e : String)
    (hok : ∀ s ∈ pre, tr (dir ++ "/" ++ s) = .ok (f (dir ++ "/" ++ s)))
    (herr : tr (dir ++ "/" ++ seg) = .error e) :
    ∀ acc, transcribeLoop tr dir acc (pre ++ seg :: rest) =
      ((pre ++ [seg]).map (fun s => dir ++ "/" ++ s), .error e) := by
  induction pre with
  | nil => intro acc; simp [transcribeLoop, herr]
  | cons s pre' ih =>
    intro acc
    have hs := hok s (by simp)
    have ih' := ih (fun x hx => hok x (by simp [hx]))
    simp only [List.cons_append, transcribeLoop, hs, List.append_eq, ih',
      List.map_cons]

/-- Sorting the filtered listing is invariant under permutations of the
listing. -/
theorem sortedFilter_perm {l₁ l₂ : List String} (h : l₁.Perm l₂) :
    List.insertionSort jsLe (segmentFilter l₁)
      = List.insertionSort jsLe (segmentFilter l₂) := by
  exact List.eq_of_perm_of_sorted
    (((List.perm_insertionSort jsLe _).trans (h.filter _)).trans
      (List.perm_insertionSort jsLe _).symm)
    (List.sorted_insertionSort jsLe _) (List.sorted_insertionSort jsLe _)

/-- `splitAudioFile` is invariant under permutations of the directory
listing. -/
theorem splitAudioFile_perm (o : Oracle) (l₂ : List String)
    (h : l₂.Perm o.dirListing) :
    splitAudioFile { o with dirListing := l₂ } = splitAudioFile o := by
  obtain ⟨f1, f2, f3, f4, f5, f6, f7, f8, f9, f10, f11, f12, f13, f14⟩ := o
  simp only [splitAudioFile]
  rw [sortedFilter_perm h]

/-- `cleanupFiles` does not read the directory listing. -/
theorem cleanupFiles_listing (o : Oracle) (l₂ : List String) (hd : Bool)
    (fs : FS) :
    cleanupFiles { o with dirListing := l₂ } hd fs = cleanupFiles o hd fs := by
  cases o
  rfl

/-- The body of a run is invariant under permutations of the directory
listing. -/
theorem runBody_listing_perm (file : FileDesc) (ch : String) (o : Oracle)
    (l₂ : List String) (h : l₂.Perm o.dirListing) :
    runBody file ch { o with dirListing := l₂ } = runBody file ch o := by
  have hs := splitAudioFile_perm o l₂ h
  obtain ⟨f1, f2, f3, f4, f5, f6, f7, f8, f9, f10, f11, f12, f13, f14⟩ := o
  simp only [runBody, hs]

/-- A whole run is invariant under permutations of the directory
listing. -/
theorem processAudioFile_listing_perm (file : FileDesc) (ch : String)
    (o : Oracle) (l₂ : List String) (h : l₂.Perm o.dirListing) :
    processAudioFile file ch { o with dirListing := l₂ }
      = processAudioFile file ch o := by
  have hb := runBody_listing_perm file ch o l₂ h
  have hc := cleanupFiles_listing o l₂
  simp only [processAudioFile, hb, hc]

/-! ## Claims -/

/-- C1: every `processAudioFile` run, whether it ends in normal completion
or in a stage failure, invokes the cleanup routine exactly once on its
exit path, and afterwards (the removal syscalls succeeding) neither the
run's temp file nor its temp segment directory exists on disk. -/
theorem cleanup_once_and_artifacts_removed (file : FileDesc) (ch : String)
    (o : Oracle) (hu : o.unlinkOk = true) (hr : o.rmOk = true) :
    (processAudioFile file ch o).cleanupCalls = 1 ∧
    (processAudioFile file ch o).fs.tempFile = false ∧
    (processAudioFile file ch o).fs.tempDir = false := by
  refine ⟨rfl, ?_⟩
  have h := cleanupFiles_clean o (runBody file ch o).hasDir (runBody file ch o).fs
    hu hr (runBody_dir_inv file ch o)
  simp [processAudioFile, h]

theorem cleanup_once_and_artifacts_removed_witness :
    (processAudioFile exFile "C" exOracleDirect).cleanupCalls = 1 ∧
    (processAudioFile exFile "C" exOracleDirect).fs.tempFile = false ∧
    (processAudioFile exFile "C" exOracleDirect).fs.tempDir = false :=
  cleanup_once_and_artifacts_removed exFile "C" exOracleDirect rfl rfl

/-- C5: the size branch is the strict comparison `> 25 MB` with
25 MB = 26,214,400 bytes: an asset of exactly 26,214,400 bytes takes the
direct-transcription path (no split, no temp directory, one whole-file
transcription call), and any strictly larger asset takes the split
path. -/
theorem size_branch_strict_threshold :
    (∀ size : Nat, exceedsLimit size = true ↔ 26214400 < size) ∧
    (∀ (file : FileDesc) (ch : String) (o : Oracle), o.fetchOk = true →
      o.size = 26214400 →
      (processAudioFile file ch o).trace.splitCalls = 0 ∧
      (processAudioFile file ch o).trace.dirCreated = false ∧
      (processAudioFile file ch o).trace.transcribeCalls = [tempFilePath file]) ∧
    (∀ (file : FileDesc) (ch : String) (o : Oracle), o.fetchOk = true →
      26214400 < o.size →
      (processAudioFile file ch o).trace.splitCalls = 1 ∧
      (processAudioFile file ch o).trace.dirCreated = true) := by
  refine ⟨fun size => by simp [exceedsLimit_eq], ?_, ?_⟩
  · intro file ch o hf hsize
    have hex : exceedsLimit o.size = false :=
      exceedsLimit_eq_false (by rw [hsize])
    rcases htr : o.transcribe (tempFilePath file) with e | t <;>
      simp [processAudioFile, runBody, hf, hex, htr]
  · intro file ch o hf hsize
    have hex := exceedsLimit_eq_true hsize
    rcases hsp : splitAudioFile o with e | segs
    · simp [processAudioFile, runBody, hf, hex, hsp]
    · rcases hlp : transcribeLoop o.transcribe (segmentsDir file) "" segs with ⟨calls, r⟩
      rcases r with e | t <;> simp [processAudioFile, runBody, hf, hex, hsp, hlp]

theorem size_branch_strict_threshold_witness :
    (exceedsLimit 26214401 = true) ∧
    (processAudioFile exFile "C" exOracleDirect).trace.splitCalls = 0 ∧
    (processAudioFile exFile "C" exOracleDirect).trace.dirCreated = false ∧
    (processAudioFile exFile "C" exOracleDirect).trace.transcribeCalls
      = [tempFilePath exFile] ∧
    (processAudioFile exFile "C" exOracleSplitBare).trace.splitCalls = 1 := by
  obtain ⟨h1, h2, h3⟩ := size_branch_strict_threshold
  refine ⟨(h1 26214401).mpr (by decide), ?_, ?_, ?_, ?_⟩
  · exact (h2 exFile "C" exOracleDirect rfl rfl).1
  · exact (h2 exFile "C" exOracleDirect rfl rfl).2.1
  · exact (h2 exFile "C" exOracleDirect rfl rfl).2.2
  · exact (h3 exFile "C" exOracleSplitBare rfl (by decide)).1

/-- C6: a failure of either removal syscall during cleanup is swallowed
(logged only): the outcome the caller sees and the messages posted are
unchanged by whether cleanup succeeds. -/
theorem cleanup_failure_never_masks_outcome (file : FileDesc) (ch : String)
    (o : Oracle) (u r : Bool) :
    (processAudioFile file ch { o with unlinkOk := u, rmOk := r }).outcome
      = (processAudioFile file ch o).outcome ∧
    (processAudioFile file ch { o with unlinkOk := u, rmOk := r }).trace.posts
      = (processAudioFile file ch o).trace.posts := by
  have h := runBody_cleanup_indep file ch o u r
  constructor <;> simp [processAudioFile, h]

/-- C8: an asset at or below 25 MB is transcribed by exactly one service
call on the whole temp file, and the posted transcript is exactly that
call's text (no aggregation artifacts are appended on this path). -/
theorem direct_path_single_transcription (file : FileDesc) (ch : String)
    (o : Oracle) (t : String) (hf : o.fetchOk = true)
    (hs : o.size ≤ 26214400)
    (ht : o.transcribe (tempFilePath file) = .ok t) :
    (processAudioFile file ch o).trace.transcribeCalls = [tempFilePath file] ∧
    (processAudioFile file ch o).trace.splitCalls = 0 ∧
    (processAudioFile file ch o).outcome = .ok () ∧
    (processAudioFile file ch o).trace.posts
      = [(ch, resultMessage file.name t)] := by
  have hex := exceedsLimit_eq_false hs
  simp [processAudioFile, runBody, hf, hex, ht]

theorem direct_path_single_transcription_witness :
    (processAudioFile exFileB "C" exOracleDirectB).trace.transcribeCalls
      = [tempFilePath exFileB] ∧
    (processAudioFile exFileB "C" exOracleDirectB).trace.splitCalls = 0 ∧
    (processAudioFile exFileB "C" exOracleDirectB).outcome = .ok () ∧
    (processAudioFile exFileB "C" exOracleDirectB).trace.posts
      = [("C", resultMessage exFileB.name "memo text")] :=
  direct_path_single_transcription exFileB "C" exOracleDirectB "memo text"
    rfl (by decide) (by decide)

/-- C9: the temp segment directory is created iff the split branch is
taken (download succeeded and measured size strictly above 25 MB); on a
fetch failure no directory is ever created and cleanup removes the
partial temp file (when the unlink syscall succeeds). -/
theorem temp_dir_iff_split_branch (file : FileDesc) (ch : String)
    (o : Oracle) :
    ((processAudioFile file ch o).trace.dirCreated = true ↔
      o.fetchOk = true ∧ 26214400 < o.size) ∧
    (o.fetchOk = false →
      (processAudioFile file ch o).trace.dirCreated = false ∧
      (o.unlinkOk = true →
        (processAudioFile file ch o).fs.tempFile = false)) := by
  constructor
  · rcases hf : o.fetchOk with _ | _
    · simp [processAudioFile, runBody, hf]
    · rcases hex : exceedsLimit o.size with _ | _
      · have hlt : ¬ 26214400 < o.size := by
          simpa [exceedsLimit_eq] using hex
        rcases htr : o.transcribe (tempFilePath file) with e | t <;>
          simp [processAudioFile, runBody, hf, hex, htr, hlt]
      · have hlt : 26214400 < o.size := by
          simpa [exceedsLimit_eq] using hex
        rcases hsp : splitAudioFile o with e | segs
        · simp [processAudioFile, runBody, hf, hex, hsp, hlt]
        · rcases hlp : transcribeLoop o.transcribe (segmentsDir file) "" segs with ⟨calls, r⟩
          rcases r with e | t <;>
            simp [processAudioFile, runBody, hf, hex, hsp, hlp, hlt]
  · intro hf
    refine ⟨by simp [processAudioFile, runBody, hf], fun hu => ?_⟩
    rcases hp : o.partialFile with _ | _ <;>
      simp [processAudioFile, runBody, cleanupFiles, hf, hu, hp]

theorem temp_dir_iff_split_branch_witness :
    (processAudioFile exFile "C" exOracleFetchFail).trace.dirCreated = false ∧
    (processAudioFile exFile "C" exOracleFetchFail).fs.tempFile = false := by
  obtain ⟨h1, h2⟩ := temp_dir_iff_split_branch exFile "C" exOracleFetchFail
  obtain ⟨h3, h4⟩ := h2 rfl
  exact ⟨h3, h4 rfl⟩

/-- C7: a successful `Split` returns exactly the directory listing
filtered to generated segment names and sorted lexicographically; the
result is invariant under the order the listing is reported in. -/
theorem split_result_sorted_listing_independent (o : Oracle)
    (l : List String) (h : splitAudioFile o = .ok l) :
    l = List.insertionSort jsLe (segmentFilter o.dirListing) ∧
    List.Sorted jsLe l ∧
    l.Perm (segmentFilter o.dirListing) ∧
    (∀ x ∈ l, jsStartsWith x "segment_" = true) ∧
    (∀ l₂, l₂.Perm o.dirListing →
      splitAudioFile { o with dirListing := l₂ } = .ok l) := by
  have hl : l = List.insertionSort jsLe (segmentFilter o.dirListing) := by
    unfold splitAudioFile at h
    split at h
    · exact absurd h (by simp)
    · split at h
      · exact absurd h (by simp)
      · split at h
        · exact absurd h (by simp)
        · exact (Except.ok.injEq _ _ ▸ h).symm
  subst hl
  refine ⟨rfl, List.sorted_insertionSort jsLe _, List.perm_insertionSort jsLe _,
    ?_, ?_⟩
  · intro x hx
    have hx' : x ∈ segmentFilter o.dirListing :=
      (List.mem_insertionSort jsLe).mp hx
    unfold segmentFilter at hx'
    simpa using (List.mem_filter.mp hx').2
  · intro l₂ hp
    rw [splitAudioFile_perm o l₂ hp, h]

theorem split_result_sorted_listing_independent_witness :
    (["segment_000.mp3", "segment_001.mp3", "segment_002.mp3"]
      = List.insertionSort jsLe (segmentFilter exOracleSplitBare.dirListing)) ∧
    List.Sorted jsLe ["segment_000.mp3", "segment_001.mp3", "segment_002.mp3"] ∧
    List.Perm ["segment_000.mp3", "segment_001.mp3", "segment_002.mp3"]
      (segmentFilter exOracleSplitBare.dirListing) ∧
    (∀ x ∈ ["segment_000.mp3", "segment_001.mp3", "segment_002.mp3"],
      jsStartsWith x "segment_" = true) ∧
    (∀ l₂, l₂.Perm exOracleSplitBare.dirListing →
      splitAudioFile { exOracleSplitBare with dirListing := l₂ }
        = .ok ["segment_000.mp3", "segment_001.mp3", "segment_002.mp3"]) :=
  split_result_sorted_listing_independent exOracleSplitBare
    ["segment_000.mp3", "segment_001.mp3", "segment_002.mp3"] (by decide)

/-- C2 counterexample: three segments whose transcriptions are `"a "`,
`"b "`, `"c "` (as the claim puts it) yield the double-spaced transcript
`"a  b  c  "`, not the claimed `"a b c "`: the loop appends its own space
after each segment text rather than joining the texts with single
spaces. -/
theorem split_transcript_spaced_counterexample :
    (processAudioFile exFile "C" exOracleSplitSpaced).trace.posts
      = [("C", resultMessage "rec.mp3" "a  b  c  ")] ∧
    resultMessage "rec.mp3" "a  b  c  " ≠ resultMessage "rec.mp3" "a b c " := by
  constructor
  · simp only [processAudioFile, runBody, exceedsLimit_eq]
    decide
  · decide

/-- C2 (amended): for an asset strictly above 25 MB, `Split` is called
exactly once, one transcription call is made per segment in ascending
filename order, and the posted transcript is the concatenation of
`text ++ " "` over the segments in that order (the texts separated by the
single appended spaces, with one trailing space), independent of the
order the listing reports the segments in. -/
theorem split_transcript_joined (file : FileDesc) (ch : String) (o : Oracle)
    (f : String → String) (hf : o.fetchOk = true) (hs : 26214400 < o.size)
    (hp : o.probeOk = true) (hm : o.ffmpegOk = true) (hr : o.readdirOk = true)
    (ht : ∀ p, o.transcribe p = .ok (f p)) :
    (processAudioFile file ch o).trace.splitCalls = 1 ∧
    (processAudioFile file ch o).trace.transcribeCalls
      = (List.insertionSort jsLe (segmentFilter o.dirListing)).map
          (fun s => segmentsDir file ++ "/" ++ s) ∧
    (processAudioFile file ch o).trace.posts
      = [(ch, resultMessage file.name
          (joinedTranscript f (segmentsDir file)
            (List.insertionSort jsLe (segmentFilter o.dirListing))))] ∧
    (∀ l₂, l₂.Perm o.dirListing →
      processAudioFile file ch { o with dirListing := l₂ }
        = processAudioFile file ch o) := by
  have hex := exceedsLimit_eq_true hs
  have hsp : splitAudioFile o
      = .ok (List.insertionSort jsLe (segmentFilter o.dirListing)) := by
    simp [splitAudioFile, hp, hm, hr]
  have hlp := transcribeLoop_ok o.transcribe f (segmentsDir file)
    (List.insertionSort jsLe (segmentFilter o.dirListing))
    (fun s _ => ht _) ""
  refine ⟨?_, ?_, ?_, fun l₂ h => processAudioFile_listing_perm file ch o l₂ h⟩ <;>
    simp [processAudioFile, runBody, hf, hex, hsp, hlp, String.empty_append]

theorem split_transcript_joined_witness :
    (processAudioFile exFile "C" exOracleSplitBare).trace.splitCalls = 1 ∧
    (processAudioFile exFile "C" exOracleSplitBare).trace.transcribeCalls
      = (List.insertionSort jsLe (segmentFilter exOracleSplitBare.dirListing)).map
          (fun s => segmentsDir exFile ++ "/" ++ s) ∧
    (processAudioFile exFile "C" exOracleSplitBare).trace.posts
      = [("C", resultMessage exFile.name
          (joinedTranscript exTexts (segmentsDir exFile)
            (List.insertionSort jsLe (segmentFilter exOracleSplitBare.dirListing))))] ∧
    (∀ l₂, l₂.Perm exOracleSplitBare.dirListing →
      processAudioFile exFile "C" { exOracleSplitBare with dirListing := l₂ }
        = processAudioFile exFile "C" exOracleSplitBare) :=
  split_transcript_joined exFile "C" exOracleSplitBare exTexts rfl (by decide)
    rfl rfl rfl (fun p => rfl)

/-- C3 counterexample: a run on the split path whose split produces zero
segments does not fail with a `SplitError`: it completes successfully and
posts an empty transcript. -/
theorem zero_segments_success_counterexample :
    (processAudioFile exFile "C" exOracleZeroSegs).outcome = .ok () ∧
    (processAudioFile exFile "C" exOracleZeroSegs).trace.splitCalls = 1 ∧
    (processAudioFile exFile "C" exOracleZeroSegs).trace.transcribeCalls = [] ∧
    (processAudioFile exFile "C" exOracleZeroSegs).trace.posts
      = [("C", resultMessage "rec.mp3" "")] := by
  refine ⟨?_, ?_, ?_, ?_⟩ <;>
    (simp only [processAudioFile, runBody, exceedsLimit_eq]; decide)

/-- C3 (amended): when the split path is taken and the split reports zero
segments, the run does not fail: it makes no transcription call and
completes normally, posting the result message with an empty
transcript. -/
theorem zero_segments_empty_transcript (file : FileDesc) (ch : String)
    (o : Oracle) (hf : o.fetchOk = true) (hs : 26214400 < o.size)
    (hp : o.probeOk = true) (hm : o.ffmpegOk = true) (hr : o.readdirOk = true)
    (hempty : segmentFilter o.dirListing = []) :
    (processAudioFile file ch o).outcome = .ok () ∧
    (processAudioFile file ch o).trace.transcribeCalls = [] ∧
    (processAudioFile file ch o).trace.posts
      = [(ch, resultMessage file.name "")] := by
  have hex := exceedsLimit_eq_true hs
  have hsp : splitAudioFile o = .ok [] := by
    simp [splitAudioFile, hp, hm, hr, hempty, List.insertionSort]
  simp [processAudioFile, runBody, hf, hex, hsp, transcribeLoop]

theorem zero_segments_empty_transcript_witness :
    (processAudioFile exFile "C" exOracleZeroSegs).outcome = .ok () ∧
    (processAudioFile exFile "C" exOracleZeroSegs).trace.transcribeCalls = [] ∧
    (processAudioFile exFile "C" exOracleZeroSegs).trace.posts
      = [("C", resultMessage exFile.name "")] :=
  zero_segments_empty_transcript exFile "C" exOracleZeroSegs rfl (by decide)
    rfl rfl rfl rfl

/-- C4 counterexample: a transcription failure is not reported as an
error tagged with the failing segment's identity: two runs that fail on
different segments propagate the identical raw service error `"boom"`,
so the propagated error does not identify the stage or the segment. -/
theorem transcription_error_untagged_counterexample :
    (processAudioFile exFile "C" exOracleFailFirst).outcome = .error "boom" ∧
    (processAudioFile exFile "C" exOracleFailSecond).outcome = .error "boom" ∧
    (processAudioFile exFile "C" exOracleFailFirst).trace.transcribeCalls
      ≠ (processAudioFile exFile "C" exOracleFailSecond).trace.transcribeCalls := by
  refine ⟨?_, ?_, ?_⟩ <;>
    (simp only [processAudioFile, runBody, exceedsLimit_eq]; decide)

/-- C4 (amended): no stage retries or recovers locally — the first failing
segment aborts the run, exactly the segments up to and including it were
attempted, no transcript is posted, and the raw service error propagates
to the caller unchanged (untagged with stage or segment identity);
segmentation-stage errors, by contrast, carry the stage-identifying
message prefix (shown here for the probe failure). -/
theorem stage_error_propagation (file : FileDesc) (ch : String) (o : Oracle)
    (pre : List String) (seg : String) (rest : List String) (e : String)
    (f : String → String)
    (hf : o.fetchOk = true) (hs : 26214400 < o.size)
    (hp : o.probeOk = true) (hm : o.ffmpegOk = true) (hr : o.readdirOk = true)
    (hsegs : List.insertionSort jsLe (segmentFilter o.dirListing)
      = pre ++ seg :: rest)
    (hok : ∀ s ∈ pre, o.transcribe (segmentsDir file ++ "/" ++ s)
      = .ok (f (segmentsDir file ++ "/" ++ s)))
    (herr : o.transcribe (segmentsDir file ++ "/" ++ seg) = .error e) :
    (processAudioFile file ch o).outcome = .error e ∧
    (processAudioFile file ch o).trace.transcribeCalls
      = (pre ++ [seg]).map (fun s => segmentsDir file ++ "/" ++ s) ∧
    (processAudioFile file ch o).trace.posts = [] ∧
    (∀ o₂ : Oracle, o₂.fetchOk = true → 26214400 < o₂.size →
      o₂.probeOk = false →
      (processAudioFile file ch o₂).outcome
        = .error ("FFprobe failed: " ++ o₂.probeErrMsg)) := by
  have hex := exceedsLimit_eq_true hs
  have hsp : splitAudioFile o = .ok (pre ++ seg :: rest) := by
    simp [splitAudioFile, hp, hm, hr, hsegs]
  have hlp := transcribeLoop_err o.transcribe f (segmentsDir file) pre seg rest e
    hok herr ""
  refine ⟨?_, ?_, ?_, ?_⟩
  · simp [processAudioFile, runBody, hf, hex, hsp, hlp]
  · simp [processAudioFile, runBody, hf, hex, hsp, hlp]
  · simp [processAudioFile, runBody, hf, hex, hsp, hlp]
  · intro o₂ hf₂ hs₂ hp₂
    have hex₂ := exceedsLimit_eq_true hs₂
    have hsp₂ : splitAudioFile o₂
        = .error ("FFprobe failed: " ++ o₂.probeErrMsg) := by
      simp [splitAudioFile, hp₂]
    simp [processAudioFile, runBody, hf₂, hex₂, hsp₂]

theorem stage_error_propagation_witness :
    (processAudioFile exFile "C" exOracleFailSecond).outcome = .error "boom" ∧
    (processAudioFile exFile "C" exOracleFailSecond).trace.transcribeCalls
      = (["segment_000.mp3"] ++ ["segment_001.mp3"]).map
          (fun s => segmentsDir exFile ++ "/" ++ s) ∧
    (processAudioFile exFile "C" exOracleFailSecond).trace.posts = [] ∧
    (∀ o₂ : Oracle, o₂.fetchOk = true → 26214400 < o₂.size →
      o₂.probeOk = false →
      (processAudioFile exFile "C" o₂).outcome
        = .error ("FFprobe failed: " ++ o₂.probeErrMsg)) :=
  stage_error_propagation exFile "C" exOracleFailSecond ["segment_000.mp3"]
    "segment_001.mp3" [] "boom" (fun _ => "a") rfl (by decide) rfl rfl rfl
    (by decide) (by decide) (by decide)

/-- The processing loop on a file list whose prefix succeeds and whose
next file fails: the loop performs exactly the prefix runs and the
failing run, emits their posts, and reports the escaped error; the
remaining files are never processed. -/
theorem processLoop_spec (ch : String) (env : Nat → Oracle) (bad : FileDesc)
    (post : List FileDesc) (e : String) :
    ∀ (pre : List FileDesc) (i₀ : Nat),
    (∀ i (hi : i < pre.length),
      (processAudioFile (pre.get ⟨i, hi⟩) ch (env (i₀ + i))).outcome = .ok ()) →
    (processAudioFile bad ch (env (i₀ + pre.length))).outcome = .error e →
    processLoop ch env (pre ++ bad :: post) i₀ =
      (postsOf (runsFrom ch env pre i₀
          ++ [processAudioFile bad ch (env (i₀ + pre.length))]),
       runsFrom ch env pre i₀
          ++ [processAudioFile bad ch (env (i₀ + pre.length))],
       true) := by
  intro pre
  induction pre with
  | nil =>
    intro i₀ hok hbad
    simp only [List.length_nil, Nat.add_zero] at hbad
    simp [processLoop, runsFrom, postsOf, hbad]
  | cons a pre' ih =>
    intro i₀ hok hbad
    have ha : (processAudioFile a ch (env (i₀ + 0))).outcome = .ok () :=
      hok 0 (by simp)
    rw [Nat.add_zero] at ha
    have hok' : ∀ i (hi : i < pre'.length),
        (processAudioFile (pre'.get ⟨i, hi⟩) ch (env (i₀ + 1 + i))).outcome
          = .ok () := by
      intro i hi
      have h2 : i₀ + 1 + i = i₀ + (i + 1) := by omega
      rw [h2]
      exact hok (i + 1) (by simpa using Nat.succ_lt_succ hi)
    have hbad' : (processAudioFile bad ch
        (env (i₀ + 1 + pre'.length))).outcome = .error e := by
      have h2 : i₀ + 1 + pre'.length = i₀ + (a :: pre').length := by
        simp; omega
      rw [h2]
      exact hbad
    have ih' := ih (i₀ + 1) hok' hbad'
    have h3 : i₀ + 1 + pre'.length = i₀ + (a :: pre').length := by simp; omega
    rw [h3] at ih'
    simp only [List.cons_append, processLoop, ha, List.append_eq, ih',
      runsFrom, postsOf, List.foldr_cons]

/-- `runsFrom` performs one run per file. -/
theorem runsFrom_length (ch : String) (env : Nat → Oracle) :
    ∀ (l : List FileDesc) (i₀ : Nat), (runsFrom ch env l i₀).length = l.length := by
  intro l
  induction l with
  | nil => intro i₀; rfl
  | cons a l' ih => intro i₀; simp [runsFrom, ih]

/-- C10: when an inbound event carries several audio files they are
processed strictly sequentially in list order; the first failing file
aborts the handler, so exactly the files up to and including it are ever
run (no later file is fetched or transcribed), their per-file results are
posted, and a single generic failure notice ends the reply instead of
results for the remaining files. -/
theorem handler_sequential_abort_on_failure (files : List FileDesc)
    (ch : String) (env : Nat → Oracle) (pre : List FileDesc) (bad : FileDesc)
    (post : List FileDesc) (e : String)
    (hsplit : files.filter (fun f => isAudioFile f) = pre ++ bad :: post)
    (hok : ∀ i (hi : i < pre.length),
      (processAudioFile (pre.get ⟨i, hi⟩) ch (env i)).outcome = .ok ())
    (hbad : (processAudioFile bad ch (env pre.length)).outcome = .error e) :
    handleMention files ch env =
      (Msg.says startNotice ::
        postsOf (runsFrom ch env pre 0
          ++ [processAudioFile bad ch (env pre.length)])
        ++ [Msg.says failureNotice],
       runsFrom ch env pre 0 ++ [processAudioFile bad ch (env pre.length)]) ∧
    (runsFrom ch env pre 0
      ++ [processAudioFile bad ch (env pre.length)]).length
      = pre.length + 1 := by
  have hlen : files.length > 0 := by
    rcases files with _ | ⟨f, fs⟩
    · simp at hsplit
    · simp
  have hloop := processLoop_spec ch env bad post e pre 0
    (fun i hi => by simpa using hok i hi)
    (by simpa using hbad)
  rw [Nat.zero_add] at hloop
  constructor
  · simp only [handleMention, hsplit]
    rw [if_pos hlen]
    rw [if_pos (by simp : (pre ++ bad :: post).length > 0)]
    rw [hloop]
    simp
  · simp [runsFrom_length]

theorem handler_sequential_abort_on_failure_witness :
    handleMention [exFile, exFileDoc, exFileC, exFileB] "C" exEnv =
      (Msg.says startNotice ::
        postsOf (runsFrom "C" exEnv [exFile] 0
          ++ [processAudioFile exFileC "C" (exEnv [exFile].length)])
        ++ [Msg.says failureNotice],
       runsFrom "C" exEnv [exFile] 0
        ++ [processAudioFile exFileC "C" (exEnv [exFile].length)]) ∧
    (runsFrom "C" exEnv [exFile] 0
      ++ [processAudioFile exFileC "C" (exEnv [exFile].length)]).length
      = [exFile].length + 1 := by
  refine handler_sequential_abort_on_failure
    [exFile, exFileDoc, exFileC, exFileB] "C" exEnv [exFile] exFileC [exFileB]
    "rate limited" (by decide) ?_ ?_
  · intro i hi
    have h0 : i = 0 := by simpa using Nat.lt_one_iff.mp (by simpa using hi)
    subst h0
    simp only [List.get]
    simp only [processAudioFile, runBody, exceedsLimit_eq]
    decide
  · simp only [processAudioFile, runBody, exceedsLimit_eq]
    decide

end VoiceTranscriber
